import Mathlib

/-!
Shallow embedding of the numerical core of `xy_surface_fit`
(`src/point_cloud_gui.py`): grid sizing and scattered-to-grid resampling
in `App.resample_and_fit`, the centering step of `App.load_data`, and the
polynomial fit/evaluate pair from the repository's `polynomial` module
(absent from the sources; modelled from the specification).  Machine
floats are idealised as rationals; the scipy scattered interpolator is an
explicit parameter returning `none` where linear interpolation is
undefined (the `NaN` results that the source masks out).
-/

/-- A single `(x, y, z)` sample, one row of the source's `n × 3` arrays. -/
structure Point3 where
  x : ℚ
  y : ℚ
  z : ℚ
deriving DecidableEq, Repr

/-- Minimum of a list of rationals (`np.ndarray.min` on a nonempty array);
`0` on the empty list, which the source never queries. -/
def listMin : List ℚ → ℚ
  | [] => 0
  | [a] => a
  | a :: b :: t => min a (listMin (b :: t))

/-- Maximum of a list of rationals (`np.ndarray.max`). -/
def listMax : List ℚ → ℚ
  | [] => 0
  | [a] => a
  | a :: b :: t => max a (listMax (b :: t))

/-- Dot product of two coefficient/value lists. -/
def dot (a b : List ℚ) : ℚ :=
  (List.zipWith (· * ·) a b).sum

/-- Python's built-in `round` on the exact value: round to nearest,
ties to even (the source computes `int(round(...))` on a float). -/
def roundHalfEven (q : ℚ) : ℤ :=
  if q - ⌊q⌋ < 1 / 2 then ⌊q⌋
  else if 1 / 2 < q - ⌊q⌋ then ⌊q⌋ + 1
  else if ⌊q⌋ % 2 = 0 then ⌊q⌋ else ⌊q⌋ + 1

/-- `np.linspace a b n`: `n` evenly spaced samples from `a` to `b`,
endpoints included (`[a]` when `n = 1`, `[]` when `n = 0`). -/
def linspace (a b : ℚ) : ℕ → List ℚ
  | 0 => []
  | 1 => [a]
  | n + 2 => (List.range (n + 2)).map fun i : ℕ =>
      a + (i : ℚ) * (b - a) / ((n : ℚ) + 1)

/-- Grid resolution choice of `App.resample_and_fit` (source lines
117–126): the requested step count goes to the axis of smaller extent and
the other axis's count is the requested count scaled by the extent ratio,
rounded; a zero smaller extent falls back to the requested count. -/
def gridSteps (range_x range_y : ℚ) (steps : ℤ) : ℤ × ℤ :=
  if range_x ≤ range_y then
    (steps, if 0 < range_x then roundHalfEven ((steps : ℚ) * (range_y / range_x)) else steps)
  else
    (if 0 < range_y then roundHalfEven ((steps : ℚ) * (range_x / range_y)) else steps, steps)

/-- `x.min()` over a point list's x column. -/
def xmin (pts : List Point3) : ℚ := listMin (pts.map Point3.x)

/-- `x.max()` over a point list's x column. -/
def xmax (pts : List Point3) : ℚ := listMax (pts.map Point3.x)

/-- `y.min()` over a point list's y column. -/
def ymin (pts : List Point3) : ℚ := listMin (pts.map Point3.y)

/-- `y.max()` over a point list's y column. -/
def ymax (pts : List Point3) : ℚ := listMax (pts.map Point3.y)

/-- `range_x = x.max() - x.min()` (source line 118). -/
def rangeX (pts : List Point3) : ℚ := xmax pts - xmin pts

/-- `range_y = y.max() - y.min()` (source line 119). -/
def rangeY (pts : List Point3) : ℚ := ymax pts - ymin pts

-- Sanity examples for the embedded sizing rule and rounding.
example : roundHalfEven (5 / 2) = 2 := by norm_num [roundHalfEven]
example : roundHalfEven (3 / 2) = 2 := by norm_num [roundHalfEven]
example : roundHalfEven (-5 / 2) = -2 := by norm_num [roundHalfEven]
example : gridSteps 1 1 100 = (100, 100) := by norm_num [gridSteps, roundHalfEven]
example : gridSteps 1 2 10 = (10, 20) := by norm_num [gridSteps, roundHalfEven]

/-- The embedded round never falls below the floor. -/
theorem floor_le_roundHalfEven (q : ℚ) : ⌊q⌋ ≤ roundHalfEven q := by
  unfold roundHalfEven
  split
  · exact le_refl _
  · split
    · omega
    · split <;> omega

/-- Any integer below `q` is below the rounded value. -/
theorem le_roundHalfEven {n : ℤ} {q : ℚ} (h : (n : ℚ) ≤ q) : n ≤ roundHalfEven q :=
  le_trans (Int.le_floor.mpr h) (floor_le_roundHalfEven q)

/-- Rounding an integer returns it unchanged. -/
theorem roundHalfEven_intCast (m : ℤ) : roundHalfEven (m : ℚ) = m := by
  unfold roundHalfEven
  rw [Int.floor_intCast]
  norm_num

/-- The minimum of a nonempty list never exceeds its maximum. -/
theorem listMin_le_listMax : ∀ l : List ℚ, l ≠ [] → listMin l ≤ listMax l
  | [], h => absurd rfl h
  | [a], _ => le_refl a
  | a :: b :: t, _ => by
    have ih := listMin_le_listMax (b :: t) (by simp)
    simp only [listMin, listMax]
    exact le_trans (min_le_left _ _) (le_max_left _ _)

/-- Extents computed from a point list are nonnegative. -/
theorem rangeX_nonneg (pts : List Point3) : 0 ≤ rangeX pts := by
  unfold rangeX xmax xmin
  rcases pts with _ | ⟨p, t⟩
  · simp [listMin, listMax]
  · have := listMin_le_listMax ((p :: t).map Point3.x) (by simp)
    linarith

/-- Extents computed from a point list are nonnegative (y axis). -/
theorem rangeY_nonneg (pts : List Point3) : 0 ≤ rangeY pts := by
  unfold rangeY ymax ymin
  rcases pts with _ | ⟨p, t⟩
  · simp [listMin, listMax]
  · have := listMin_le_listMax ((p :: t).map Point3.y) (by simp)
    linarith

/-- The spec's concrete scenario: the four corners of the unit square. -/
def ptsSquare : List Point3 :=
  [⟨0, 0, 0⟩, ⟨1, 0, 1⟩, ⟨0, 1, 1⟩, ⟨1, 1, 2⟩]

/-- Claim C1: grid sizing rule.  For extents computed from the input
point set: if `range_x ≤ range_y` then `steps_x = steps` and
`steps_y = round(steps * range_y / range_x)` (or `steps` when
`range_x = 0`), symmetrically when `range_x > range_y`; equal extents
give `steps` on both axes, and `range_x = 2 * range_y` (with a positive
`range_y`, the degenerate case being governed by the zero-extent
fallback) gives exactly `steps_y = steps_x / 2`. -/
theorem grid_sizing_rule (pts : List Point3) (steps : ℤ) :
    (rangeX pts ≤ rangeY pts →
      gridSteps (rangeX pts) (rangeY pts) steps =
        (steps, if rangeX pts = 0 then steps
          else roundHalfEven ((steps : ℚ) * (rangeY pts / rangeX pts)))) ∧
    (rangeY pts < rangeX pts →
      gridSteps (rangeX pts) (rangeY pts) steps =
        (if rangeY pts = 0 then steps
          else roundHalfEven ((steps : ℚ) * (rangeX pts / rangeY pts)), steps)) ∧
    (rangeX pts = rangeY pts →
      gridSteps (rangeX pts) (rangeY pts) steps = (steps, steps)) ∧
    (0 < rangeY pts → rangeX pts = 2 * rangeY pts →
      (gridSteps (rangeX pts) (rangeY pts) steps).1 = 2 * steps ∧
      (gridSteps (rangeX pts) (rangeY pts) steps).2 = steps) := by
  have hx := rangeX_nonneg pts
  have hy := rangeY_nonneg pts
  refine ⟨?_, ?_, ?_, ?_⟩
  · intro h
    unfold gridSteps
    rw [if_pos h]
    by_cases h0 : rangeX pts = 0
    · rw [if_pos h0, if_neg (by rw [h0]; exact lt_irrefl 0)]
    · rw [if_neg h0, if_pos (lt_of_le_of_ne hx (Ne.symm h0))]
  · intro h
    unfold gridSteps
    rw [if_neg (not_le.mpr h)]
    by_cases h0 : rangeY pts = 0
    · rw [if_pos h0, if_neg (by rw [h0]; exact lt_irrefl 0)]
    · rw [if_neg h0, if_pos (lt_of_le_of_ne hy (Ne.symm h0))]
  · intro h
    unfold gridSteps
    rw [if_pos (le_of_eq h)]
    by_cases h0 : rangeX pts = 0
    · rw [if_neg (by rw [h0]; exact lt_irrefl 0)]
    · have hpos : 0 < rangeX pts := lt_of_le_of_ne hx (Ne.symm h0)
      rw [if_pos hpos, ← h, div_self h0, mul_one, roundHalfEven_intCast]
  · intro h0 h
    have hlt : rangeY pts < rangeX pts := by linarith
    unfold gridSteps
    rw [if_neg (not_le.mpr hlt), if_pos h0]
    constructor
    · show roundHalfEven ((steps : ℚ) * (rangeX pts / rangeY pts)) = 2 * steps
      have : rangeX pts / rangeY pts = 2 := by
        rw [h]; field_simp
      rw [this, show ((steps : ℚ) * 2) = ((2 * steps : ℤ) : ℚ) by push_cast; ring,
        roundHalfEven_intCast]
    · rfl

/-- Claim C1 witness: on the unit-square scenario both extents are 1,
so requesting 7 steps yields a 7 × 7 grid. -/
theorem grid_sizing_rule_witness :
    gridSteps (rangeX ptsSquare) (rangeY ptsSquare) 7 = (7, 7) :=
  (grid_sizing_rule ptsSquare 7).2.2.1
    (by norm_num [rangeX, rangeY, xmax, xmin, ymax, ymin, ptsSquare, listMin, listMax])

/-- Claim C6 counterexample: with extents `range_x = 1 < range_y = 2`
and 10 requested steps the code returns `steps_x = 10, steps_y = 20`:
the axis with the *larger* extent does not keep the requested count,
contradicting the claim (which predicts `steps_y = 10`). -/
theorem axis_dominance_counterexample :
    gridSteps 1 2 10 = (10, 20) ∧ ¬(gridSteps 1 2 10).2 = 10 := by
  have h : gridSteps 1 2 10 = (10, 20) := by
    norm_num [gridSteps, roundHalfEven]
  exact ⟨h, by rw [h]; norm_num⟩

/-- Claim C6 (amended): the axis with the *smaller* extent keeps the
user-requested step count while the other axis's count is the requested
count scaled by the (≥ 1) extent ratio, rounded to nearest; an axis of
zero extent makes both axes fall back to the requested count. -/
theorem axis_dominance_amended (rx ry : ℚ) (steps : ℤ)
    (hrx : 0 ≤ rx) (hry : 0 ≤ ry) :
    (0 < rx → rx ≤ ry →
      gridSteps rx ry steps = (steps, roundHalfEven ((steps : ℚ) * (ry / rx)))) ∧
    (0 < ry → ry < rx →
      gridSteps rx ry steps = (roundHalfEven ((steps : ℚ) * (rx / ry)), steps)) ∧
    (rx = 0 → gridSteps rx ry steps = (steps, steps)) ∧
    (ry = 0 → gridSteps rx ry steps = (steps, steps)) := by
  refine ⟨?_, ?_, ?_, ?_⟩
  · intro h0 hle
    unfold gridSteps
    rw [if_pos hle, if_pos h0]
  · intro h0 hlt
    unfold gridSteps
    rw [if_neg (not_le.mpr hlt), if_pos h0]
  · intro h0
    unfold gridSteps
    rw [if_pos (h0 ▸ hry), if_neg (by rw [h0]; exact lt_irrefl 0)]
  · intro h0
    by_cases hc : rx ≤ ry
    · have hx0 : rx = 0 := le_antisymm (h0 ▸ hc) hrx
      unfold gridSteps
      rw [if_pos hc, if_neg (by rw [hx0]; exact lt_irrefl 0)]
    · unfold gridSteps
      rw [if_neg hc, if_neg (by rw [h0]; exact lt_irrefl 0)]

/-- Claim C6 amended witness: extents 1 and 2 with 10 requested steps
give the smaller axis the requested 10 and scale the larger axis. -/
theorem axis_dominance_amended_witness :
    gridSteps 1 2 10 = (10, roundHalfEven ((10 : ℚ) * (2 / 1))) :=
  (axis_dominance_amended 1 2 10 (by norm_num) (by norm_num)).1
    (by norm_num) (by norm_num)

/-- Claim C8: with positive extents on both axes and a requested count
of at least 1, both computed step counts are at least the requested
count, hence in particular at least 1. -/
theorem steps_never_below_requested (rx ry : ℚ) (steps : ℤ)
    (h1 : 0 < rx) (h2 : 0 < ry) (h3 : 1 ≤ steps) :
    steps ≤ (gridSteps rx ry steps).1 ∧ steps ≤ (gridSteps rx ry steps).2 ∧
    1 ≤ (gridSteps rx ry steps).1 ∧ 1 ≤ (gridSteps rx ry steps).2 := by
  have hkey : ∀ a b : ℚ, 0 < a → a ≤ b →
      steps ≤ roundHalfEven ((steps : ℚ) * (b / a)) := by
    intro a b ha hab
    apply le_roundHalfEven
    have hratio : 1 ≤ b / a := (one_le_div ha).mpr hab
    have hs : (0 : ℚ) ≤ (steps : ℚ) := by exact_mod_cast le_trans zero_le_one h3
    exact le_mul_of_one_le_right hs hratio
  by_cases hc : rx ≤ ry
  · have e1 : (gridSteps rx ry steps).1 = steps := by
      unfold gridSteps; rw [if_pos hc]
    have e2 : (gridSteps rx ry steps).2 =
        roundHalfEven ((steps : ℚ) * (ry / rx)) := by
      unfold gridSteps; rw [if_pos hc]; simp [if_pos h1]
    have h4 := hkey rx ry h1 hc
    refine ⟨le_of_eq e1.symm, ?_, by omega, ?_⟩
    · rw [e2]; exact h4
    · rw [e2]; omega
  · have hlt : ry < rx := not_le.mp hc
    have e1 : (gridSteps rx ry steps).1 =
        roundHalfEven ((steps : ℚ) * (rx / ry)) := by
      unfold gridSteps; rw [if_neg hc]; simp [if_pos h2]
    have e2 : (gridSteps rx ry steps).2 = steps := by
      unfold gridSteps; rw [if_neg hc]
    have h4 := hkey ry rx h2 (le_of_lt hlt)
    refine ⟨?_, le_of_eq e2.symm, ?_, by omega⟩
    · rw [e1]; exact h4
    · rw [e1]; omega

/-- Claim C8 witness: extents 1 and 2 with 10 requested steps give
counts 10 and 20, both at least the requested 10. -/
theorem steps_never_below_requested_witness :
    (10 : ℤ) ≤ (gridSteps 1 2 10).1 ∧ (10 : ℤ) ≤ (gridSteps 1 2 10).2 ∧
    (1 : ℤ) ≤ (gridSteps 1 2 10).1 ∧ (1 : ℤ) ≤ (gridSteps 1 2 10).2 :=
  steps_never_below_requested 1 2 10 (by norm_num) (by norm_num) (by norm_num)

/-- Points of `np.linspace` lie between the endpoints when `a ≤ b`. -/
theorem mem_linspace_bounds {a b c : ℚ} {n : ℕ} (hab : a ≤ b)
    (hc : c ∈ linspace a b n) : a ≤ c ∧ c ≤ b := by
  rcases n with _ | _ | m
  · simp [linspace] at hc
  · simp [linspace] at hc
    subst hc
    exact ⟨le_refl _, hab⟩
  · simp only [linspace] at hc
    rw [List.mem_map] at hc
    obtain ⟨i, hi, rfl⟩ := hc
    rw [List.mem_range] at hi
    have hpos : (0 : ℚ) < (m : ℚ) + 1 := by positivity
    have hle : (i : ℚ) ≤ (m : ℚ) + 1 := by
      exact_mod_cast Nat.lt_succ_iff.mp hi
    have hba : (0 : ℚ) ≤ b - a := by linarith
    constructor
    · have : (0 : ℚ) ≤ (i : ℚ) * (b - a) / ((m : ℚ) + 1) :=
        div_nonneg (mul_nonneg (Nat.cast_nonneg i) hba) (le_of_lt hpos)
      linarith
    · have h1 : (i : ℚ) * (b - a) ≤ ((m : ℚ) + 1) * (b - a) :=
        mul_le_mul_of_nonneg_right hle hba
      have h2 : (i : ℚ) * (b - a) / ((m : ℚ) + 1) ≤ b - a := by
        rw [div_le_iff₀ hpos]
        linarith
      linarith

/-- `xi = np.linspace(x.min(), x.max(), steps_x)` (source line 128). -/
def gridXs (pts : List Point3) (steps : ℤ) : List ℚ :=
  linspace (xmin pts) (xmax pts) ((gridSteps (rangeX pts) (rangeY pts) steps).1.toNat)

/-- `yi = np.linspace(y.min(), y.max(), steps_y)` (source line 129). -/
def gridYs (pts : List Point3) (steps : ℤ) : List ℚ :=
  linspace (ymin pts) (ymax pts) ((gridSteps (rangeX pts) (rangeY pts) steps).2.toNat)

/-- The resampling of `App.resample_and_fit` (source lines 128–136):
evaluate the scattered interpolator at every node of the
`meshgrid(xi, yi)` lattice and keep, in the row-major order of the
boolean-mask flattening, the nodes where the interpolated value is
defined.  `interp` stands for scipy's `griddata` linear interpolant;
`none` plays the role of the `NaN` entries removed by the mask. -/
def resampleGrid (pts : List Point3) (steps : ℤ)
    (interp : ℚ → ℚ → Option ℚ) : List Point3 :=
  (gridYs pts steps).flatMap fun gy =>
    (gridXs pts steps).filterMap fun gx =>
      (interp gx gy).map fun zv => ⟨gx, gy, zv⟩

/-- Every output row of the resampling is a grid node at which the
interpolation oracle is defined, carrying exactly the interpolated z. -/
theorem resample_mem_decomp {pts : List Point3} {steps : ℤ}
    {interp : ℚ → ℚ → Option ℚ} {p : Point3}
    (hp : p ∈ resampleGrid pts steps interp) :
    p.x ∈ gridXs pts steps ∧ p.y ∈ gridYs pts steps ∧
    interp p.x p.y = some p.z := by
  unfold resampleGrid at hp
  rw [List.mem_flatMap] at hp
  obtain ⟨gy, hgy, hp⟩ := hp
  rw [List.mem_filterMap] at hp
  obtain ⟨gx, hgx, hmap⟩ := hp
  rw [Option.map_eq_some'] at hmap
  obtain ⟨zv, hz, hpe⟩ := hmap
  subst hpe
  exact ⟨hgx, hgy, hz⟩

/-- Claim C2: bounding property.  Every `(x, y)` produced by the
resampling lies inside the closed bounding box of the input points. -/
theorem resample_bounding (pts : List Point3) (steps : ℤ)
    (interp : ℚ → ℚ → Option ℚ) (hne : pts ≠ []) :
    ∀ p ∈ resampleGrid pts steps interp,
      xmin pts ≤ p.x ∧ p.x ≤ xmax pts ∧ ymin pts ≤ p.y ∧ p.y ≤ ymax pts := by
  intro p hp
  obtain ⟨hgx, hgy, -⟩ := resample_mem_decomp hp
  have hxne : pts.map Point3.x ≠ [] := fun h => hne (List.map_eq_nil_iff.mp h)
  have hyne : pts.map Point3.y ≠ [] := fun h => hne (List.map_eq_nil_iff.mp h)
  have hx : xmin pts ≤ xmax pts := listMin_le_listMax _ hxne
  have hy : ymin pts ≤ ymax pts := listMin_le_listMax _ hyne
  obtain ⟨h1, h2⟩ := mem_linspace_bounds hx hgx
  obtain ⟨h3, h4⟩ := mem_linspace_bounds hy hgy
  exact ⟨h1, h2, h3, h4⟩

/-- Claim C7: convex-hull restriction.  The resampled set contains only
grid nodes whose interpolated z-value is defined; nodes where the
interpolation oracle is undefined (outside the convex hull, or with a
degenerate input) never appear in the output. -/
theorem resample_defined_only (pts : List Point3) (steps : ℤ)
    (interp : ℚ → ℚ → Option ℚ) :
    ∀ p ∈ resampleGrid pts steps interp,
      p.x ∈ gridXs pts steps ∧ p.y ∈ gridYs pts steps ∧
      interp p.x p.y = some p.z :=
  fun _ hp => resample_mem_decomp hp

/-- Interpolation oracle used by witnesses: the plane `z = x + y`,
defined everywhere. -/
def interpPlane (x y : ℚ) : Option ℚ := some (x + y)

/-- Two evenly spaced samples are exactly the two endpoints. -/
theorem linspace_two (a b : ℚ) : linspace a b 2 = [a, b] := by
  show (List.range 2).map (fun i => a + i * (b - a) / ((0 : ℕ) + 1)) = [a, b]
  norm_num [List.range_succ]

/-- Sizing of the unit-square scenario at 2 requested steps. -/
theorem gridSteps_ptsSquare :
    gridSteps (rangeX ptsSquare) (rangeY ptsSquare) 2 = (2, 2) := by
  norm_num [gridSteps, roundHalfEven, rangeX, rangeY, xmin, xmax, ymin, ymax,
    listMin, listMax, ptsSquare]

/-- Grid x-coordinates of the unit-square scenario at 2 steps. -/
theorem gridXs_ptsSquare : gridXs ptsSquare 2 = [0, 1] := by
  rw [gridXs, gridSteps_ptsSquare]
  norm_num [xmin, xmax, listMin, listMax, ptsSquare]
  exact linspace_two 0 1

/-- Grid y-coordinates of the unit-square scenario at 2 steps. -/
theorem gridYs_ptsSquare : gridYs ptsSquare 2 = [0, 1] := by
  rw [gridYs, gridSteps_ptsSquare]
  norm_num [ymin, ymax, listMin, listMax, ptsSquare]
  exact linspace_two 0 1

/-- Evaluating the embedded resampling on the spec's unit-square
scenario with 2 steps reproduces the four corner samples. -/
theorem resampleGrid_ptsSquare_eval :
    resampleGrid ptsSquare 2 interpPlane = ptsSquare := by
  rw [resampleGrid, gridXs_ptsSquare, gridYs_ptsSquare]
  norm_num [interpPlane, ptsSquare, List.filterMap_cons]

/-- Claim C2 witness: the corner `(1, 0, 1)` of the resampled unit
square lies within the input's bounding box. -/
theorem resample_bounding_witness :
    xmin ptsSquare ≤ (Point3.mk 1 0 1).x ∧ (Point3.mk 1 0 1).x ≤ xmax ptsSquare ∧
    ymin ptsSquare ≤ (Point3.mk 1 0 1).y ∧ (Point3.mk 1 0 1).y ≤ ymax ptsSquare :=
  resample_bounding ptsSquare 2 interpPlane (by simp [ptsSquare])
    (Point3.mk 1 0 1) (by rw [resampleGrid_ptsSquare_eval]; simp [ptsSquare])

/-- Claim C7 witness: the corner `(1, 1, 2)` of the resampled unit
square is a grid node with a defined interpolated z-value. -/
theorem resample_defined_only_witness :
    (Point3.mk 1 1 2).x ∈ gridXs ptsSquare 2 ∧
    (Point3.mk 1 1 2).y ∈ gridYs ptsSquare 2 ∧
    interpPlane (Point3.mk 1 1 2).x (Point3.mk 1 1 2).y =
      some (Point3.mk 1 1 2).z :=
  resample_defined_only ptsSquare 2 interpPlane
    (Point3.mk 1 1 2) (by rw [resampleGrid_ptsSquare_eval]; simp [ptsSquare])

/-- All `(x, y)` positions of the list are collinear: every triple has a
zero cross product.  This is the degeneracy that makes a 2-D
triangulation of the input impossible. -/
def collinearPts (pts : List Point3) : Prop :=
  ∀ p ∈ pts, ∀ q ∈ pts, ∀ r ∈ pts,
    (q.x - p.x) * (r.y - p.y) - (q.y - p.y) * (r.x - p.x) = 0

instance (pts : List Point3) : Decidable (collinearPts pts) := by
  unfold collinearPts
  infer_instance

/-- Python-level failures of the resample-and-fit pipeline: the
`ValueError` of `np.linspace` on a negative sample count, the error of
the triangulation backing `griddata` on degenerate input, the
least-squares failure of `polyfit2d`, and the evaluate-side coefficient
length mismatch. -/
inductive PyError where
  | valueError
  | qhullError
  | linAlgError
  | dimensionMismatch
deriving DecidableEq, Repr

/-- The resampling step of `App.resample_and_fit` with its failure
modes (source lines 117–136).  `np.linspace` raises when a computed
step count is negative; the scattered interpolator (modelled from the
spec: "no triangulation possible" when there are fewer than 3 points or
all points are collinear) raises on degenerate input; otherwise the
masked grid is returned — possibly empty, with no validation of
`steps` or of the point count. -/
def resampleRun (pts : List Point3) (steps : ℤ)
    (interp : ℚ → ℚ → Option ℚ) : Except PyError (List Point3) :=
  let s := gridSteps (rangeX pts) (rangeY pts) steps
  if s.1 < 0 ∨ s.2 < 0 then .error .valueError
  else if pts.length < 3 ∨ collinearPts pts then .error .qhullError
  else .ok (resampleGrid pts steps interp)

/-- The four square corners are not collinear. -/
theorem ptsSquare_not_collinear : ¬ collinearPts ptsSquare := by
  intro h
  have := h ⟨0, 0, 0⟩ (by simp [ptsSquare]) ⟨1, 0, 1⟩ (by simp [ptsSquare])
    ⟨0, 1, 1⟩ (by simp [ptsSquare])
  norm_num at this

/-- Sizing of the unit-square scenario at 0 requested steps. -/
theorem gridSteps_ptsSquare_zero :
    gridSteps (rangeX ptsSquare) (rangeY ptsSquare) 0 = (0, 0) := by
  norm_num [gridSteps, roundHalfEven, rangeX, rangeY, xmin, xmax, ymin, ymax,
    listMin, listMax, ptsSquare]

/-- Claim C5 counterexample: `steps = 0 < 1` on a valid 4-point input
does not fail at all — the resampling succeeds with an *empty* output
(a silent empty success), where the claim demands an `InvalidInput`
failure for every `steps < 1`. -/
theorem resample_invalid_input_counterexample :
    (0 : ℤ) < 1 ∧ resampleRun ptsSquare 0 interpPlane = Except.ok [] := by
  refine ⟨by norm_num, ?_⟩
  show (if ((gridSteps (rangeX ptsSquare) (rangeY ptsSquare) 0).1 < 0 ∨
      (gridSteps (rangeX ptsSquare) (rangeY ptsSquare) 0).2 < 0) then
      Except.error PyError.valueError
    else if ptsSquare.length < 3 ∨ collinearPts ptsSquare then
      Except.error PyError.qhullError
    else Except.ok (resampleGrid ptsSquare 0 interpPlane)) = Except.ok []
  rw [if_neg (by rw [gridSteps_ptsSquare_zero]; norm_num),
    if_neg (by push_neg; exact ⟨by norm_num [ptsSquare], ptsSquare_not_collinear⟩)]
  have hy : gridYs ptsSquare 0 = [] := by
    rw [gridYs, gridSteps_ptsSquare_zero]
    rfl
  rw [resampleGrid, hy]
  rfl

/-- Claim C5 (amended): there is no `InvalidInput` validation.  A
degenerate point set (fewer than 3 points, or all collinear) makes the
resampling fail with the triangulation error — a distinct failure, not
a silent empty result — provided the computed step counts are
nonnegative (a negative count fails earlier, in the grid generator);
but `steps = 0 < 1` on a valid input succeeds with an empty output. -/
theorem resample_failure_amended (pts : List Point3) (steps : ℤ)
    (interp : ℚ → ℚ → Option ℚ)
    (hdeg : pts.length < 3 ∨ collinearPts pts)
    (hsx : 0 ≤ (gridSteps (rangeX pts) (rangeY pts) steps).1)
    (hsy : 0 ≤ (gridSteps (rangeX pts) (rangeY pts) steps).2) :
    resampleRun pts steps interp = Except.error PyError.qhullError := by
  show (if ((gridSteps (rangeX pts) (rangeY pts) steps).1 < 0 ∨
      (gridSteps (rangeX pts) (rangeY pts) steps).2 < 0) then
      Except.error PyError.valueError
    else if pts.length < 3 ∨ collinearPts pts then
      Except.error PyError.qhullError
    else Except.ok (resampleGrid pts steps interp)) =
      Except.error PyError.qhullError
  rw [if_neg (by omega), if_pos hdeg]

/-- Three collinear points on the diagonal, used as C5's witness. -/
def ptsDiag : List Point3 := [⟨0, 0, 0⟩, ⟨1, 1, 0⟩, ⟨2, 2, 0⟩]

/-- The diagonal points are collinear. -/
theorem ptsDiag_collinear : collinearPts ptsDiag := by
  intro p hp q hq r hr
  simp [ptsDiag] at hp hq hr
  rcases hp with rfl | rfl | rfl <;> rcases hq with rfl | rfl | rfl <;>
    rcases hr with rfl | rfl | rfl <;> norm_num

/-- Sizing of the diagonal scenario at 5 requested steps. -/
theorem gridSteps_ptsDiag :
    gridSteps (rangeX ptsDiag) (rangeY ptsDiag) 5 = (5, 5) := by
  norm_num [gridSteps, roundHalfEven, rangeX, rangeY, xmin, xmax, ymin, ymax,
    listMin, listMax, ptsDiag]

/-- Claim C5 amended witness: resampling 3 collinear points with 5
steps fails with the triangulation error. -/
theorem resample_failure_amended_witness :
    resampleRun ptsDiag 5 interpPlane = Except.error PyError.qhullError :=
  resample_failure_amended ptsDiag 5 interpPlane
    (Or.inr ptsDiag_collinear)
    (by rw [gridSteps_ptsDiag]; norm_num)
    (by rw [gridSteps_ptsDiag]; norm_num)

/-- Modelled from the spec: the `polynomial` module's monomial
enumeration (the module is imported by the source but absent from the
repository).  All `(i, j)` with `i + j ≤ degree`, degree by degree,
`i` ascending within each total degree (spec §4.2). -/
def monomials : ℕ → List (ℕ × ℕ)
  | 0 => [(0, 0)]
  | d + 1 => monomials d ++ (List.range (d + 2)).map fun i => (i, d + 1 - i)

/-- Determinant of a square matrix given as a list of rows, by Laplace
expansion along the first row. -/
def detL : List (List ℚ) → ℚ
  | [] => 1
  | r :: rs =>
    ((List.range r.length).map fun j =>
      (-1 : ℚ) ^ j * r.getD j 0 * detL (rs.map fun row => row.eraseIdx j)).sum
termination_by m => m.length
decreasing_by simp only [List.length_map, List.length_cons]; omega

/-- Exact Cramer solve of a square linear system; `none` when the
system matrix is singular. -/
def cramerSolve (m : List (List ℚ)) (b : List ℚ) : Option (List ℚ) :=
  if detL m = 0 then none
  else some ((List.range b.length).map fun j =>
    detL (List.zipWith (fun row bi => row.set j bi) m b) / detL m)

/-- Modelled from the spec: `polyfit2d(x, y, z, deg)` of the missing
`polynomial` module — the ordinary least-squares fit of a bivariate
polynomial of total degree `deg` (spec §4.2), realised here by solving
the normal equations exactly over ℚ (one column per monomial, in the
enumeration order of `monomials`); `none` is the `SingularFit` /
`LinAlgError` outcome. -/
def polyfit2d (xs ys zs : List ℚ) (deg : ℕ) : Option (List ℚ) :=
  let cols := (monomials deg).map fun ij =>
    List.zipWith (fun x y => x ^ ij.1 * y ^ ij.2) xs ys
  let m := cols.map fun c => cols.map fun c2 => dot c c2
  let b := cols.map fun c => dot c zs
  cramerSolve m b

/-- Twice the number of enumerated monomials is `(d+1)(d+2)`. -/
theorem monomials_length_mul_two (deg : ℕ) :
    (monomials deg).length * 2 = (deg + 1) * (deg + 2) := by
  induction deg with
  | zero => rfl
  | succ d ih =>
    show ((monomials d ++ (List.range (d + 2)).map fun i => (i, d + 1 - i)).length) * 2 = _
    rw [List.length_append, List.length_map, List.length_range]
    calc ((monomials d).length + (d + 2)) * 2
        = (monomials d).length * 2 + (d + 2) * 2 := by ring
      _ = (d + 1) * (d + 2) + (d + 2) * 2 := by rw [ih]
      _ = (d + 1 + 1) * (d + 1 + 2) := by ring

/-- The enumeration has the triangular-number length of the spec. -/
theorem monomials_length (deg : ℕ) :
    (monomials deg).length = (deg + 1) * (deg + 2) / 2 := by
  have h := monomials_length_mul_two deg
  omega

/-- A successful Cramer solve returns one entry per right-hand side. -/
theorem cramerSolve_length {m : List (List ℚ)} {b c : List ℚ}
    (h : cramerSolve m b = some c) : c.length = b.length := by
  unfold cramerSolve at h
  split at h
  · exact absurd h (by simp)
  · rw [Option.some_inj] at h
    rw [← h, List.length_map, List.length_range]

/-- Claim C4: monomial count.  Whenever the fit succeeds, the returned
coefficient vector has exactly `(degree+1)(degree+2)/2` entries — one
per monomial `x^i y^j` with `i + j ≤ degree`. -/
theorem polyfit2d_length (xs ys zs : List ℚ) (deg : ℕ) (c : List ℚ)
    (h : polyfit2d xs ys zs deg = some c) :
    c.length = (deg + 1) * (deg + 2) / 2 := by
  unfold polyfit2d at h
  have hlen := cramerSolve_length h
  rw [hlen, List.length_map, List.length_map, monomials_length]

/-- The degree-1 fit of three samples of the plane `z = x + y`
recovers the exact coefficients `[0, 1, 1]` (order `1, y, x`). -/
theorem polyfit2d_plane_eval :
    polyfit2d [0, 1, 0] [0, 0, 1] [0, 1, 1] 1 = some [0, 1, 1] := by
  norm_num [polyfit2d, monomials, cramerSolve, detL, dot, List.range_succ]

/-- Claim C4 witness: the successful degree-1 fit above has
`(1+1)(1+2)/2 = 3` coefficients. -/
theorem polyfit2d_length_witness :
    ((polyfit2d [0, 1, 0] [0, 0, 1] [0, 1, 1] 1).getD []).length =
      (1 + 1) * (1 + 2) / 2 :=
  polyfit2d_length [0, 1, 0] [0, 0, 1] [0, 1, 1] 1
    ((polyfit2d [0, 1, 0] [0, 0, 1] [0, 1, 1] 1).getD [])
    (by rw [polyfit2d_plane_eval]; rfl)

/-- Strict monotonicity of the triangular monomial count. -/
theorem triangular_lt {k d : ℕ} (h : k < d) :
    (k + 1) * (k + 2) / 2 < (d + 1) * (d + 2) / 2 := by
  obtain ⟨a, ha⟩ : ∃ a, (k + 1) * (k + 2) = 2 * a :=
    ⟨(monomials k).length, by rw [← monomials_length_mul_two k]; ring⟩
  obtain ⟨b, hb⟩ : ∃ b, (d + 1) * (d + 2) = 2 * b :=
    ⟨(monomials d).length, by rw [← monomials_length_mul_two d]; ring⟩
  have hp : (k + 1) * (k + 2) < (d + 1) * (d + 2) := by nlinarith
  omega

/-- Modelled from the spec: recover the total degree from the length of
a coefficient vector — the unique `d` whose monomial count equals that
length; `none` is the `DimensionMismatch` outcome of evaluate
(spec §4.3). -/
def degreeOfLength (n : ℕ) : Option ℕ :=
  if h : ∃ d, d < n + 1 ∧ (d + 1) * (d + 2) / 2 = n then some (Nat.find h)
  else none

/-- Evaluation of the fitted polynomial at one point, in the monomial
enumeration shared with the fit. -/
def polyEval (coeff : List ℚ) (d : ℕ) (x y : ℚ) : ℚ :=
  dot coeff ((monomials d).map fun ij => x ^ ij.1 * y ^ ij.2)

/-- Modelled from the spec: `polyval2d(x, y, coeff)` of the missing
`polynomial` module — pointwise evaluation `Σ coeff[m] · x^i y^j` in the
same monomial enumeration as the fit, the degree being recovered from
the coefficient count (`none` = `DimensionMismatch`, spec §4.3). -/
def polyval2d (xs ys coeff : List ℚ) : Option (List ℚ) :=
  (degreeOfLength coeff.length).map fun d =>
    List.zipWith (polyEval coeff d) xs ys

/-- A triangular length determines its degree. -/
theorem degreeOfLength_triangular (d : ℕ) :
    degreeOfLength ((d + 1) * (d + 2) / 2) = some d := by
  have h2 := monomials_length_mul_two d
  have hlen := monomials_length d
  have hP : 2 * (d + 1) ≤ (d + 1) * (d + 2) := by nlinarith
  have hdlt : d < (d + 1) * (d + 2) / 2 + 1 := by omega
  have hex : ∃ k, k < (d + 1) * (d + 2) / 2 + 1 ∧
      (k + 1) * (k + 2) / 2 = (d + 1) * (d + 2) / 2 := ⟨d, hdlt, rfl⟩
  unfold degreeOfLength
  rw [dif_pos hex]
  congr 1
  rw [Nat.find_eq_iff]
  refine ⟨⟨hdlt, rfl⟩, ?_⟩
  intro k hk hcontra
  exact absurd hcontra.2 (Nat.ne_of_lt (triangular_lt hk))

/-- When the coefficient count matches degree `d`, evaluation succeeds
and is the pointwise polynomial of degree `d`. -/
theorem polyval2d_of_length {coeff : List ℚ} {d : ℕ}
    (hc : coeff.length = (d + 1) * (d + 2) / 2) (xs ys : List ℚ) :
    polyval2d xs ys coeff =
      some (List.zipWith (polyEval coeff d) xs ys) := by
  unfold polyval2d
  rw [hc, degreeOfLength_triangular]
  rfl

/-- `np.vstack([xf, yf, zf]).T` seen as a point list: pair three
parallel coordinate arrays back into rows. -/
def mkPoints : List ℚ → List ℚ → List ℚ → List Point3
  | x :: xs, y :: ys, z :: zs => ⟨x, y, z⟩ :: mkPoints xs ys zs
  | _, _, _ => []

/-- The three output tables of one cycle: the resampled grid, the
coefficient vector, and the fitted values at the same grid nodes. -/
structure CycleResult where
  resampled : List Point3
  coeff : List ℚ
  fitted : List Point3
deriving DecidableEq, Repr

/-- One full resample-then-fit cycle of `App.resample_and_fit` (source
lines 114–142): resample onto the grid, fit with `polyfit2d` on the
parallel arrays `(xf, yf, zf)`, evaluate `polyval2d` at the same
`(xf, yf)`, and store `(xf, yf, z_fit)` as the fitted table. -/
def runCycle (pts : List Point3) (steps : ℤ) (deg : ℕ)
    (interp : ℚ → ℚ → Option ℚ) : Except PyError CycleResult :=
  match resampleRun pts steps interp with
  | .error e => .error e
  | .ok r =>
    match polyfit2d (r.map Point3.x) (r.map Point3.y) (r.map Point3.z) deg with
    | none => .error .linAlgError
    | some coeff =>
      match polyval2d (r.map Point3.x) (r.map Point3.y) coeff with
      | none => .error .dimensionMismatch
      | some zfit =>
        .ok ⟨r, coeff, mkPoints (r.map Point3.x) (r.map Point3.y) zfit⟩

/-- Zipping a binary function over the two coordinate columns of one
point list is a map over the points. -/
theorem zipWith_map_pair (f : ℚ → ℚ → ℚ) (r : List Point3) :
    List.zipWith f (r.map Point3.x) (r.map Point3.y) =
      r.map fun p => f p.x p.y := by
  induction r with
  | nil => rfl
  | cons p t ih => simp [ih]

/-- Re-pairing the coordinate columns with a mapped z column is a map
over the points. -/
theorem mkPoints_maps (g : Point3 → ℚ) (r : List Point3) :
    mkPoints (r.map Point3.x) (r.map Point3.y) (r.map g) =
      r.map fun p => ⟨p.x, p.y, g p⟩ := by
  induction r with
  | nil => rfl
  | cons p t ih => simp [mkPoints, ih]

/-- Claim C3: row correspondence.  A successful resample-then-fit cycle
returns fitted and resampled tables of the same length whose rows pair
up: the fitted table is exactly the resampled table with each z
replaced by the polynomial evaluation at that row's `(x, y)` using the
cycle's own coefficient vector. -/
theorem cycle_row_correspondence (pts : List Point3) (steps : ℤ) (deg : ℕ)
    (interp : ℚ → ℚ → Option ℚ) (res : CycleResult)
    (h : runCycle pts steps deg interp = Except.ok res) :
    res.fitted.length = res.resampled.length ∧
    res.fitted = res.resampled.map
      (fun p => ⟨p.x, p.y, polyEval res.coeff deg p.x p.y⟩) ∧
    ∀ i : ℕ,
      (res.fitted[i]?).map Point3.x = (res.resampled[i]?).map Point3.x ∧
      (res.fitted[i]?).map Point3.y = (res.resampled[i]?).map Point3.y ∧
      (res.fitted[i]?).map Point3.z =
        (res.resampled[i]?).map fun p => polyEval res.coeff deg p.x p.y := by
  unfold runCycle at h
  split at h
  · exact absurd h (by simp)
  · rename_i r heq
    split at h
    · exact absurd h (by simp)
    · rename_i coeff hf
      split at h
      · exact absurd h (by simp)
      · rename_i zfit hv
        simp only [Except.ok.injEq] at h
        have hlen : coeff.length = (deg + 1) * (deg + 2) / 2 :=
          polyfit2d_length _ _ _ _ _ hf
        have hval := polyval2d_of_length hlen (r.map Point3.x) (r.map Point3.y)
        rw [hv] at hval
        have hz : zfit = r.map fun p => polyEval coeff deg p.x p.y := by
          rw [← zipWith_map_pair (polyEval coeff deg) r]
          exact Option.some_inj.mp hval
        subst hz
        rw [mkPoints_maps (fun p => polyEval coeff deg p.x p.y) r] at h
        subst h
        refine ⟨by simp, rfl, ?_⟩
        intro i
        simp only [List.getElem?_map]
        cases r[i]? <;> simp

set_option maxHeartbeats 1000000 in
/-- The degree-1 fit of the square's four corner samples recovers the
plane `z = x + y` exactly: coefficients `[0, 1, 1]` in order `1, y, x`. -/
theorem polyfit2d_ptsSquare_eval :
    polyfit2d (ptsSquare.map Point3.x) (ptsSquare.map Point3.y)
      (ptsSquare.map Point3.z) 1 = some [0, 1, 1] := by
  norm_num [ptsSquare, polyfit2d, monomials, cramerSolve, detL, dot,
    List.range_succ]

/-- Degree recovery at the concrete length 3. -/
theorem degreeOfLength_three : degreeOfLength 3 = some 1 := by
  have h := degreeOfLength_triangular 1
  norm_num at h
  exact h

/-- Evaluating the recovered plane at the four corners returns the
input elevations. -/
theorem polyval2d_ptsSquare_eval :
    polyval2d (ptsSquare.map Point3.x) (ptsSquare.map Point3.y) [0, 1, 1] =
      some [0, 1, 1, 2] := by
  have h3 : ([0, 1, 1] : List ℚ).length = 3 := rfl
  unfold polyval2d
  rw [h3, degreeOfLength_three]
  norm_num [ptsSquare, polyEval, monomials, dot, List.range_succ,
    List.replicate]

set_option maxHeartbeats 1000000 in
/-- One full cycle on the spec's unit-square scenario: the resampled
table is the four corners, the fit recovers the plane, and the fitted
table reproduces the corners exactly. -/
theorem runCycle_ptsSquare_eval :
    runCycle ptsSquare 2 1 interpPlane =
      Except.ok ⟨ptsSquare, [0, 1, 1], ptsSquare⟩ := by
  have hc1 : ¬ ((gridSteps (rangeX ptsSquare) (rangeY ptsSquare) 2).1 < 0 ∨
      (gridSteps (rangeX ptsSquare) (rangeY ptsSquare) 2).2 < 0) := by
    rw [gridSteps_ptsSquare]
    norm_num
  have hc2 : ¬ (ptsSquare.length < 3 ∨ collinearPts ptsSquare) := by
    push_neg
    exact ⟨by norm_num [ptsSquare], ptsSquare_not_collinear⟩
  have h1 : resampleRun ptsSquare 2 interpPlane = Except.ok ptsSquare := by
    show (if ((gridSteps (rangeX ptsSquare) (rangeY ptsSquare) 2).1 < 0 ∨
        (gridSteps (rangeX ptsSquare) (rangeY ptsSquare) 2).2 < 0) then
        Except.error PyError.valueError
      else if ptsSquare.length < 3 ∨ collinearPts ptsSquare then
        Except.error PyError.qhullError
      else Except.ok (resampleGrid ptsSquare 2 interpPlane)) =
        Except.ok ptsSquare
    rw [if_neg hc1, if_neg hc2, resampleGrid_ptsSquare_eval]
  simp only [runCycle, h1, polyfit2d_ptsSquare_eval, polyval2d_ptsSquare_eval]
  norm_num [mkPoints, ptsSquare]

/-- Claim C3 witness: on the unit-square cycle the fitted table has the
resampled table's length and is its map under the plane evaluation. -/
theorem cycle_row_correspondence_witness :
    (CycleResult.mk ptsSquare [0, 1, 1] ptsSquare).fitted.length =
      (CycleResult.mk ptsSquare [0, 1, 1] ptsSquare).resampled.length ∧
    (CycleResult.mk ptsSquare [0, 1, 1] ptsSquare).fitted =
      (CycleResult.mk ptsSquare [0, 1, 1] ptsSquare).resampled.map
        (fun p => ⟨p.x, p.y,
          polyEval (CycleResult.mk ptsSquare [0, 1, 1] ptsSquare).coeff 1
            p.x p.y⟩) :=
  ⟨(cycle_row_correspondence ptsSquare 2 1 interpPlane
      (CycleResult.mk ptsSquare [0, 1, 1] ptsSquare) runCycle_ptsSquare_eval).1,
   (cycle_row_correspondence ptsSquare 2 1 interpPlane
      (CycleResult.mk ptsSquare [0, 1, 1] ptsSquare) runCycle_ptsSquare_eval).2.1⟩

/-- `(x.min() + x.max()) / 2`, the x centering offset of
`App.load_data` (source line 87). -/
def centerX (pts : List Point3) : ℚ := (xmin pts + xmax pts) / 2

/-- `(y.min() + y.max()) / 2`, the y centering offset (source line 88). -/
def centerY (pts : List Point3) : ℚ := (ymin pts + ymax pts) / 2

/-- The centering step of `App.load_data` (source lines 86–92): shift
every x and y by the bounding-box midpoints, leave z unchanged. -/
def shiftData (pts : List Point3) : List Point3 :=
  pts.map fun p => ⟨p.x - centerX pts, p.y - centerY pts, p.z⟩

/-- Minimum commutes with subtracting a constant. -/
theorem listMin_map_sub (c : ℚ) :
    ∀ l : List ℚ, l ≠ [] → listMin (l.map fun v => v - c) = listMin l - c
  | [], h => absurd rfl h
  | [a], _ => rfl
  | a :: b :: t, _ => by
    have ih := listMin_map_sub c (b :: t) (by simp)
    show min (a - c) (listMin ((b :: t).map fun v => v - c)) =
      min a (listMin (b :: t)) - c
    rw [ih, min_sub_sub_right]

/-- Maximum commutes with subtracting a constant. -/
theorem listMax_map_sub (c : ℚ) :
    ∀ l : List ℚ, l ≠ [] → listMax (l.map fun v => v - c) = listMax l - c
  | [], h => absurd rfl h
  | [a], _ => rfl
  | a :: b :: t, _ => by
    have ih := listMax_map_sub c (b :: t) (by simp)
    show max (a - c) (listMax ((b :: t).map fun v => v - c)) =
      max a (listMax (b :: t)) - c
    rw [ih, max_sub_sub_right]

/-- Claim C10: centering effect of loading.  Every x is shifted by the
x midpoint `(min+max)/2`, every y by the y midpoint, z stays unchanged,
and the shifted data's bounding box is centered at the origin
(`min + max = 0` on both axes). -/
theorem load_centering (pts : List Point3) (hne : pts ≠ []) :
    (shiftData pts).map Point3.z = pts.map Point3.z ∧
    (shiftData pts).map Point3.x = pts.map (fun p => p.x - centerX pts) ∧
    (shiftData pts).map Point3.y = pts.map (fun p => p.y - centerY pts) ∧
    listMin ((shiftData pts).map Point3.x) +
      listMax ((shiftData pts).map Point3.x) = 0 ∧
    listMin ((shiftData pts).map Point3.y) +
      listMax ((shiftData pts).map Point3.y) = 0 := by
  have hxne : pts.map Point3.x ≠ [] := fun h => hne (List.map_eq_nil_iff.mp h)
  have hyne : pts.map Point3.y ≠ [] := fun h => hne (List.map_eq_nil_iff.mp h)
  have hx : (shiftData pts).map Point3.x =
      (pts.map Point3.x).map fun v => v - centerX pts := by
    simp [shiftData, Function.comp_def]
  have hy : (shiftData pts).map Point3.y =
      (pts.map Point3.y).map fun v => v - centerY pts := by
    simp [shiftData, Function.comp_def]
  refine ⟨by simp [shiftData], by simp [shiftData], by simp [shiftData],
    ?_, ?_⟩
  · rw [hx, listMin_map_sub _ _ hxne, listMax_map_sub _ _ hxne]
    unfold centerX xmin xmax
    ring
  · rw [hy, listMin_map_sub _ _ hyne, listMax_map_sub _ _ hyne]
    unfold centerY ymin ymax
    ring

/-- Two samples with distinct coordinates, used as C10's witness. -/
def ptsPair : List Point3 := [⟨0, 0, 5⟩, ⟨4, 2, 7⟩]

/-- Claim C10 witness: centering the two-point cloud shifts x and y by
the midpoints, keeps z, and centers the bounding box at the origin. -/
theorem load_centering_witness :
    (shiftData ptsPair).map Point3.z = ptsPair.map Point3.z ∧
    (shiftData ptsPair).map Point3.x =
      ptsPair.map (fun p => p.x - centerX ptsPair) ∧
    (shiftData ptsPair).map Point3.y =
      ptsPair.map (fun p => p.y - centerY ptsPair) ∧
    listMin ((shiftData ptsPair).map Point3.x) +
      listMax ((shiftData ptsPair).map Point3.x) = 0 ∧
    listMin ((shiftData ptsPair).map Point3.y) +
      listMax ((shiftData ptsPair).map Point3.y) = 0 :=
  load_centering ptsPair (by simp [ptsPair])

/-- The result-bearing attributes of the `App` object: `shifted_data`,
`resampled`, `coeff`, `fitted` (`none` = Python `None` / unset). -/
structure AppState where
  shifted_data : Option (List Point3)
  resampled : Option (List Point3)
  coeff : Option (List ℚ)
  fitted : Option (List Point3)
deriving DecidableEq, Repr

/-- The `resample_and_fit` callback as a state transition (source lines
105–142).  The two text fields arrive as the parse results of
`int(...)`: `none` when parsing raises `ValueError`, in which case the
error dialog is shown and the method returns with the state unchanged.
A pipeline failure propagates as an exception, leaving exactly the
attributes assigned before it; the degree is clamped to ℕ (the spec
constrains `degree ≥ 0`). -/
def resample_and_fit (interp : ℚ → ℚ → Option ℚ) (st : AppState)
    (stepsText degText : Option ℤ) : AppState :=
  match st.shifted_data with
  | none => st
  | some pts =>
    match stepsText, degText with
    | some steps, some deg =>
      match resampleRun pts steps interp with
      | .error _ => st
      | .ok r =>
        let st1 := { st with resampled := some r }
        match polyfit2d (r.map Point3.x) (r.map Point3.y) (r.map Point3.z)
            deg.toNat with
        | none => st1
        | some coeff =>
          let st2 := { st1 with coeff := some coeff }
          match polyval2d (r.map Point3.x) (r.map Point3.y) coeff with
          | none => st2
          | some zfit =>
            { st2 with
              fitted := some (mkPoints (r.map Point3.x) (r.map Point3.y) zfit) }
    | _, _ => st

/-- Claim C9: parse-failure atomicity.  When the steps or the degree
field fails to parse as an integer, the callback reports the error and
returns with the stored resampled, fitted and coefficient results
unchanged from before the call. -/
theorem resample_and_fit_parse_atomic (interp : ℚ → ℚ → Option ℚ)
    (st : AppState) (stepsText degText : Option ℤ)
    (h : stepsText = none ∨ degText = none) :
    (resample_and_fit interp st stepsText degText).resampled =
      st.resampled ∧
    (resample_and_fit interp st stepsText degText).fitted = st.fitted ∧
    (resample_and_fit interp st stepsText degText).coeff = st.coeff := by
  have hst : resample_and_fit interp st stepsText degText = st := by
    unfold resample_and_fit
    cases hsd : st.shifted_data with
    | none => rfl
    | some pts =>
      rcases h with rfl | rfl
      · cases degText <;> rfl
      · cases stepsText <;> rfl
  rw [hst]
  exact ⟨rfl, rfl, rfl⟩

/-- A populated application state used by C9's witness. -/
def stDemo : AppState := ⟨some ptsSquare, some ptsDiag, some [3], none⟩

/-- Claim C9 witness: with an unparsable steps field the three stored
results are untouched. -/
theorem resample_and_fit_parse_atomic_witness :
    (resample_and_fit interpPlane stDemo none (some 4)).resampled =
      stDemo.resampled ∧
    (resample_and_fit interpPlane stDemo none (some 4)).fitted =
      stDemo.fitted ∧
    (resample_and_fit interpPlane stDemo none (some 4)).coeff =
      stDemo.coeff :=
  resample_and_fit_parse_atomic interpPlane stDemo none (some 4) (Or.inl rfl)
